import Mathlib

/-!
Verification of the locale-resolution and URL-rewrite middleware of an
Optimizely SaaS CMS Next.js site.

JavaScript strings are modelled as lists of characters (`JSString`); the
JavaScript string operations used by the middleware (`startsWith`,
`includes`, single-character `split`, first-occurrence `replace`) are
embedded as executable Lean functions on character lists.  The middleware
itself (`shouldExclude`, `getBrowserLanguage`, `getLocale`,
`updateLocaleCookies`, `middleware`), the URL helpers (`createUrl`,
`leadingSlashUrlPath`) and the language configuration (`DEFAULT_LOCALE`,
`LOCALES`, `mapPathWithoutLocale`) are translated from the source.
-/

/-- A JavaScript string, modelled as its list of characters. -/
abbrev JSString := List Char

/-- Coerce a Lean string literal into the `JSString` model. -/
def str (s : String) : JSString := s.data

/-- `startsList pre s`: does `s` start with `pre`?  Character-list version of
the JavaScript prefix test. -/
def startsList : JSString → JSString → Bool
  | [], _ => true
  | _ :: _, [] => false
  | a :: as, b :: bs => (a == b) && startsList as bs

/-- JavaScript `s.startsWith(pre)`. -/
def jsStartsWith (s pre : JSString) : Bool := startsList pre s

/-- JavaScript `s.includes(sub)`: substring containment. -/
def jsIncludes (s sub : JSString) : Bool :=
  match s with
  | [] => sub == []
  | _ :: t => startsList sub s || jsIncludes t sub

/-- JavaScript `s.split(sep)` for a single-character separator (every
`split` in the source uses a one-character separator). -/
def jsSplitChar (sep : Char) : JSString → List JSString
  | [] => [[]]
  | c :: t =>
    match jsSplitChar sep t with
    | [] => [[c]]
    | h :: r => if c == sep then [] :: h :: r else (c :: h) :: r

/-- JavaScript `s.replace(pat, repl)` with a plain-string pattern: replaces
only the first occurrence. -/
def jsReplaceFirst (s pat repl : JSString) : JSString :=
  match s with
  | [] => if pat == [] then repl else []
  | c :: t =>
    if startsList pat (c :: t) then repl ++ (c :: t).drop pat.length
    else c :: jsReplaceFirst t pat repl

/-- JavaScript `s.trim()`: strip leading and trailing whitespace. -/
def trimWs (s : JSString) : JSString :=
  ((s.dropWhile Char.isWhitespace).reverse.dropWhile Char.isWhitespace).reverse

/-! ## Language configuration (`lib/optimizely/utils/language`) -/

/-- The default locale (source: `DEFAULT_LOCALE = 'en'`). -/
def DEFAULT_LOCALE : JSString := str "en"

/-- The supported locales (source: `LOCALES = ['en', 'pl', 'sv']`). -/
def LOCALES : List JSString := [str "en", str "pl", str "sv"]

/-- Source `mapPathWithoutLocale`: split on `/`, drop empty segments, drop a
leading supported-locale segment, rejoin with `/`. -/
def mapPathWithoutLocale (path : JSString) : JSString :=
  let parts := (jsSplitChar '/' path).filter (fun s => s != [])
  let parts' := if LOCALES.contains (parts.headD []) then parts.tail else parts
  List.intercalate (str "/") parts'

/-! ## URL utilities (`lib/utils`) -/

/-- Source `createUrl`: pathname plus `?`-prefixed query string when the
serialized parameters are non-empty. -/
def createUrl (pathname : JSString) (params : JSString) : JSString :=
  pathname ++ (if params.length ≠ 0 then '?' :: params else [])

/-- Source `leadingSlashUrlPath`: ensure the path starts with `/`. -/
def leadingSlashUrlPath (pathname : JSString) : JSString :=
  (if jsStartsWith pathname (str "/") then [] else str "/") ++ pathname

/-! ## Middleware request/response model -/

/-- The parts of a `NextRequest` the middleware reads: the URL pathname, the
serialized query string (`nextUrl.searchParams.toString()`), the value of
the locale cookie (if present) and the `Accept-Language` header (if
present). -/
structure NextRequest where
  pathname : JSString
  search : JSString
  cookieLocale : Option JSString
  acceptLanguage : Option JSString
deriving DecidableEq

/-- The routing action of the produced response: pass-through
(`NextResponse.next()`), internal rewrite, or HTTP redirect. -/
inductive RouteAction where
  | next : RouteAction
  | rewrite (url : JSString) : RouteAction
  | redirect (url : JSString) : RouteAction
deriving DecidableEq

/-- Mutation of the locale cookie on the outgoing response. -/
inductive CookieOp where
  | set (value : JSString) : CookieOp
  | del : CookieOp
deriving DecidableEq

/-- The parts of the outgoing `NextResponse` the middleware writes: the
routing action, the locale-cookie mutation (`none` = untouched) and the
custom locale response header (`none` = absent). -/
structure NextResponse where
  action : RouteAction
  cookieOp : Option CookieOp
  localeHeader : Option JSString
deriving DecidableEq

/-- Whether an action is an internal rewrite. -/
def RouteAction.isRewrite : RouteAction → Bool
  | .rewrite _ => true
  | _ => false

/-! ## Negotiator model

The middleware parses `Accept-Language` with the external `negotiator`
dependency, whose `languages()` result the spec describes as a
priority-ordered sequence of language tags. -/

/-- One parsed `Accept-Language` entry: the language tag and its quality
weight in thousandths (`q=0.5` is 500; absent `q` is 1000). -/
structure AcceptEntry where
  tag : JSString
  q : Nat
deriving DecidableEq

/-- Numeric value of a digit list (most significant first). -/
def natOfDigits (ds : List Char) : Nat :=
  ds.foldl (fun a c => a * 10 + (c.toNat - '0'.toNat)) 0

/-- Modelled from the spec: quality values are decimal numbers as in
`q=0.5`; parsed into thousandths (`parseFloat` keeps at most the leading
decimal number; three fractional digits suffice for quality values). -/
def parseDecimalThousandths (s : JSString) : Option Nat :=
  let intPart := s.takeWhile Char.isDigit
  let rest := s.dropWhile Char.isDigit
  let fracPart :=
    match rest with
    | '.' :: t => t.takeWhile Char.isDigit
    | _ => []
  if intPart == [] && fracPart == [] then none
  else
    let frac3 := fracPart.take 3
    some (natOfDigits intPart * 1000 + natOfDigits frac3 * 10 ^ (3 - frac3.length))

/-- Modelled from the spec: the quality parameter of one `Accept-Language`
entry — the first `;`-separated parameter of the form `q=<value>`. -/
def qParamValue : List JSString → Option JSString
  | [] => none
  | p :: ps =>
    match jsSplitChar '=' p with
    | k :: v :: _ => if k == str "q" then some v else qParamValue ps
    | _ => qParamValue ps

/-- Modelled from the spec: parse one comma-separated `Accept-Language`
entry into a tag and a quality weight (default quality 1; unparsable
quality drops the entry via weight 0). -/
def parseAcceptEntry (s : JSString) : Option AcceptEntry :=
  match jsSplitChar ';' s with
  | [] => none
  | tagRaw :: params =>
    let tag := trimWs tagRaw
    if tag == [] then none
    else
      let q :=
        match qParamValue params with
        | some v => (parseDecimalThousandths (trimWs v)).getD 0
        | none => 1000
      some ⟨tag, q⟩

/-- Insert an entry into a quality-descending list, after earlier entries of
equal quality (stable). -/
def insertByQ (e : AcceptEntry) : List AcceptEntry → List AcceptEntry
  | [] => [e]
  | x :: xs => if x.q ≤ e.q then e :: x :: xs else x :: insertByQ e xs

/-- Stable insertion sort by descending quality. -/
def sortByQ : List AcceptEntry → List AcceptEntry
  | [] => []
  | e :: es => insertByQ e (sortByQ es)

/-- Modelled from the spec: the `negotiator` dependency's parse of an
`Accept-Language` header — comma-separated entries with quality weights,
zero-quality entries dropped, sorted by descending quality (ties keep
header order). -/
def negotiatorEntries (header : JSString) : List AcceptEntry :=
  sortByQ (((jsSplitChar ',' header).filterMap parseAcceptEntry).filter
    (fun e => e.q != 0))

/-- Modelled from the spec: `new Negotiator({headers}).languages()` — the
language tags in descending quality-weighted preference order. -/
def negotiatorLanguages (header : JSString) : List JSString :=
  (negotiatorEntries header).map AcceptEntry.tag

/-! ## The middleware (translated from the source) -/

/-- Name of the locale cookie (source constant). -/
def COOKIE_NAME_LOCALE : String := "__LOCALE_NAME"

/-- Name of the custom locale header (source constant). -/
def HEADER_KEY_LOCALE : String := "X-Locale"

/-- Source `shouldExclude`: static files, API routes and dotted paths are
excluded from locale handling. -/
def shouldExclude (path : JSString) : Bool :=
  jsStartsWith path (str "/static") || jsIncludes path (str "/api/") ||
    jsIncludes path (str ".")

/-- The primary subtag of a language tag: `lang.split('-')[0]`. -/
def primarySubtag (lang : JSString) : JSString :=
  (jsSplitChar '-' lang).headD []

/-- The matching loop of source `getBrowserLanguage`: first exact match,
else first primary-subtag match, walking the negotiated order. -/
def firstLanguageMatch (languages locales : List JSString) : Option JSString :=
  match languages with
  | [] => none
  | lang :: rest =>
    if locales.contains lang then some lang
    else if locales.contains (primarySubtag lang) then some (primarySubtag lang)
    else firstLanguageMatch rest locales

/-- Source `getBrowserLanguage`: negotiate the `Accept-Language` header
(absent or empty header yields no preference). -/
def getBrowserLanguage (request : NextRequest) (locales : List JSString) :
    Option JSString :=
  match request.acceptLanguage with
  | none => none
  | some headerLanguage =>
    if headerLanguage == [] then none
    else firstLanguageMatch (negotiatorLanguages headerLanguage) locales

/-- The browser-language and default-fallback tail of source `getLocale`. -/
def getLocaleFromBrowser (request : NextRequest) (locales : List JSString) :
    JSString :=
  match getBrowserLanguage request locales with
  | some browserLang =>
    if browserLang != [] && locales.contains browserLang then browserLang
    else DEFAULT_LOCALE
  | none => DEFAULT_LOCALE

/-- Source `getLocale`: cookie first (truthy and supported), then browser
language, then the default locale. -/
def getLocale (request : NextRequest) (locales : List JSString) : JSString :=
  match request.cookieLocale with
  | some cookieLocale =>
    if cookieLocale != [] && locales.contains cookieLocale then cookieLocale
    else getLocaleFromBrowser request locales
  | none => getLocaleFromBrowser request locales

/-- Source `updateLocaleCookies`: set (or delete) the locale cookie when the
new locale differs from the incoming cookie value, and set (or remove) the
custom locale header. -/
def updateLocaleCookies (request : NextRequest) (response : NextResponse)
    (locale : Option JSString) : NextResponse :=
  let cookieLocale := request.cookieLocale
  let newLocale : Option JSString :=
    match locale with
    | some l => if l == [] then none else some l
    | none => none
  let changed : Bool :=
    match newLocale, cookieLocale with
    | some a, some b => a != b
    | some _, none => true
    | none, some _ => true
    | none, none => true
  let response' :=
    if changed then
      match newLocale with
      | some l => { response with cookieOp := some (CookieOp.set l) }
      | none => { response with cookieOp := some CookieOp.del }
    else response
  match newLocale with
  | some l => { response' with localeHeader := some l }
  | none => { response' with localeHeader := none }

/-- The locale-prefix test of the middleware:
`LOCALES.find(l => pathname.startsWith('/'+l+'/') || pathname === '/'+l)`. -/
def localeInPath (pathname : JSString) : Option JSString :=
  LOCALES.find? (fun locale =>
    jsStartsWith pathname (str "/" ++ locale ++ str "/") ||
      pathname == str "/" ++ locale)

/-- The rewrite target built in the locale-in-path branch of the middleware:
`'/'+locale+leadingSlashUrlPath(pathname.replace('/'+locale, ''))`. -/
def normTarget (pathname locale : JSString) : JSString :=
  str "/" ++ locale ++
    leadingSlashUrlPath (jsReplaceFirst pathname (str "/" ++ locale) [])

/-- The target built in the no-locale branch of the middleware:
`'/'+locale+leadingSlashUrlPath(pathname)`. -/
def noLocaleTarget (pathname locale : JSString) : JSString :=
  str "/" ++ locale ++ leadingSlashUrlPath pathname

/-- Source `middleware`: exclusion filter, locale-in-path normalization
rewrite, else resolve the locale and rewrite (default locale) or redirect
(non-default locale), updating locale cookie and header. -/
def middleware (request : NextRequest) : NextResponse :=
  let pathname := request.pathname
  let response : NextResponse :=
    { action := RouteAction.next, cookieOp := none, localeHeader := none }
  if shouldExclude pathname then response
  else
    match localeInPath pathname with
    | some localeInPathname =>
      let newUrl := createUrl (normTarget pathname localeInPathname) request.search
      updateLocaleCookies request { response with action := RouteAction.rewrite newUrl }
        (some localeInPathname)
    | none =>
      let locale := getLocale request LOCALES
      let newUrl := createUrl (noLocaleTarget pathname locale) request.search
      let response' :=
        { response with
          action :=
            if locale == DEFAULT_LOCALE then RouteAction.rewrite newUrl
            else RouteAction.redirect newUrl }
      updateLocaleCookies request response' (some locale)

/-- The locale the middleware settles on for a non-excluded request: the
path locale when present, otherwise the resolved locale. -/
def resolvedLocale (request : NextRequest) : JSString :=
  match localeInPath request.pathname with
  | some l => l
  | none => getLocale request LOCALES

/-- The path component of the rewrite/redirect target the middleware builds
for a non-excluded request. -/
def pathTarget (request : NextRequest) : JSString :=
  match localeInPath request.pathname with
  | some l => normTarget request.pathname l
  | none => noLocaleTarget request.pathname (getLocale request LOCALES)

/-! ## Helper lemmas -/

theorem startsList_append_self (l t : JSString) : startsList l (l ++ t) = true := by
  induction l with
  | nil => rfl
  | cons a as ih => simpa [startsList] using ih

theorem eq_append_of_startsList {l s : JSString} (h : startsList l s = true) :
    ∃ t, s = l ++ t := by
  induction l generalizing s with
  | nil => exact ⟨s, rfl⟩
  | cons a as ih =>
    cases s with
    | nil => simp [startsList] at h
    | cons b bs =>
      simp only [startsList, Bool.and_eq_true, beq_iff_eq] at h
      obtain ⟨t, rfl⟩ := ih h.2
      exact ⟨t, by simp [h.1]⟩

theorem jsReplaceFirst_append (pre suf repl : JSString) :
    jsReplaceFirst (pre ++ suf) pre repl = repl ++ suf := by
  cases pre with
  | nil =>
    cases suf with
    | nil => simp [jsReplaceFirst]
    | cons d u => simp [jsReplaceFirst, startsList]
  | cons a as =>
    have hmatch : startsList (a :: as) (a :: (as ++ suf)) = true := by
      simpa using startsList_append_self (a :: as) suf
    show jsReplaceFirst (a :: (as ++ suf)) (a :: as) repl = repl ++ suf
    simp only [jsReplaceFirst, hmatch, if_true]
    simp [List.length_cons, List.drop_succ_cons, List.drop_left]

theorem updateLocaleCookies_action (request : NextRequest) (response : NextResponse)
    (locale : Option JSString) :
    (updateLocaleCookies request response locale).action = response.action := by
  unfold updateLocaleCookies
  dsimp only
  split <;> split <;> (try split) <;> rfl

theorem updateLocaleCookies_some (request : NextRequest) (response : NextResponse)
    {l : JSString} (hl : l ≠ []) :
    updateLocaleCookies request response (some l) =
      { response with
        cookieOp :=
          if request.cookieLocale = some l then response.cookieOp
          else some (CookieOp.set l),
        localeHeader := some l } := by
  have hbeq : (l == []) = false := by
    simpa [beq_eq_false_iff_ne] using hl
  unfold updateLocaleCookies
  simp only [hbeq, Bool.false_eq_true, if_false]
  cases hc : request.cookieLocale with
  | none => simp
  | some b =>
    by_cases hb : b = l
    · subst hb
      simp
    · have : (l != b) = true := by
        simpa [bne_iff_ne] using fun h => hb h.symm
      simp [this, hb, fun h : b = l => hb h]

theorem middleware_excluded {request : NextRequest}
    (h : shouldExclude request.pathname = true) :
    middleware request =
      { action := RouteAction.next, cookieOp := none, localeHeader := none } := by
  unfold middleware
  simp [h]

theorem middleware_eq_locale {request : NextRequest} {L : JSString}
    (hex : shouldExclude request.pathname = false)
    (hf : localeInPath request.pathname = some L) :
    middleware request =
      updateLocaleCookies request
        { action := RouteAction.rewrite (createUrl (normTarget request.pathname L) request.search),
          cookieOp := none, localeHeader := none } (some L) := by
  unfold middleware
  simp [hex, hf]

theorem middleware_eq_noLocale {request : NextRequest}
    (hex : shouldExclude request.pathname = false)
    (hn : localeInPath request.pathname = none) :
    middleware request =
      updateLocaleCookies request
        { action :=
            if getLocale request LOCALES == DEFAULT_LOCALE then
              RouteAction.rewrite
                (createUrl (noLocaleTarget request.pathname (getLocale request LOCALES))
                  request.search)
            else
              RouteAction.redirect
                (createUrl (noLocaleTarget request.pathname (getLocale request LOCALES))
                  request.search),
          cookieOp := none, localeHeader := none } (some (getLocale request LOCALES)) := by
  unfold middleware
  simp [hex, hn]

theorem mem_LOCALES_cases {c : JSString} (h : c ∈ LOCALES) :
    c = str "en" ∨ c = str "pl" ∨ c = str "sv" := by
  simpa [LOCALES] using h

theorem contains_LOCALES_iff {c : JSString} :
    LOCALES.contains c = true ↔ c ∈ LOCALES := by
  constructor
  · intro h
    simp only [LOCALES, List.contains_cons, Bool.or_eq_true, beq_iff_eq,
      List.contains_nil] at h
    rcases h with h | h | h | h
    all_goals first
      | (subst h; simp [LOCALES])
      | simp at h
  · intro h
    rcases mem_LOCALES_cases h with rfl | rfl | rfl <;> decide

theorem getLocale_mem (request : NextRequest) :
    getLocale request LOCALES ∈ LOCALES := by
  have hbrowser : getLocaleFromBrowser request LOCALES ∈ LOCALES := by
    unfold getLocaleFromBrowser
    cases getBrowserLanguage request LOCALES with
    | none => decide
    | some b =>
      dsimp only
      split
      · next hcond =>
        exact contains_LOCALES_iff.mp (Bool.and_eq_true .. ▸ hcond).2
      · decide
  unfold getLocale
  cases request.cookieLocale with
  | none => exact hbrowser
  | some c =>
    dsimp only
    split
    · next hcond =>
      exact contains_LOCALES_iff.mp (Bool.and_eq_true .. ▸ hcond).2
    · exact hbrowser

theorem resolvedLocale_mem (request : NextRequest) :
    resolvedLocale request ∈ LOCALES := by
  unfold resolvedLocale
  cases hf : localeInPath request.pathname with
  | none => exact getLocale_mem request
  | some l => exact List.mem_of_find?_eq_some hf

theorem mem_LOCALES_ne_nil {c : JSString} (h : c ∈ LOCALES) : c ≠ [] := by
  rcases mem_LOCALES_cases h with rfl | rfl | rfl <;> decide

theorem mem_insertByQ {e x : AcceptEntry} {l : List AcceptEntry}
    (h : x ∈ insertByQ e l) : x = e ∨ x ∈ l := by
  induction l with
  | nil => simpa [insertByQ] using h
  | cons y ys ih =>
    unfold insertByQ at h
    split at h
    · rcases List.mem_cons.mp h with rfl | h'
      · exact Or.inl rfl
      · exact Or.inr h'
    · rcases List.mem_cons.mp h with rfl | h'
      · exact Or.inr (List.mem_cons_self _ _)
      · rcases ih h' with rfl | h''
        · exact Or.inl rfl
        · exact Or.inr (List.mem_cons_of_mem _ h'')

theorem pairwise_insertByQ {e : AcceptEntry} {l : List AcceptEntry}
    (h : l.Pairwise (fun a b => b.q ≤ a.q)) :
    (insertByQ e l).Pairwise (fun a b => b.q ≤ a.q) := by
  induction l with
  | nil => simp [insertByQ]
  | cons y ys ih =>
    rw [List.pairwise_cons] at h
    unfold insertByQ
    split
    · next hle =>
      rw [List.pairwise_cons]
      refine ⟨fun z hz => ?_, List.pairwise_cons.mpr h⟩
      rcases List.mem_cons.mp hz with rfl | hz'
      · exact hle
      · exact le_trans (h.1 z hz') hle
    · next hgt =>
      rw [List.pairwise_cons]
      refine ⟨fun z hz => ?_, ih h.2⟩
      rcases mem_insertByQ hz with rfl | hz'
      · omega
      · exact h.1 z hz'

theorem pairwise_sortByQ (l : List AcceptEntry) :
    (sortByQ l).Pairwise (fun a b => b.q ≤ a.q) := by
  induction l with
  | nil => simp [sortByQ]
  | cons e es ih => exact pairwise_insertByQ ih

theorem firstLanguageMatch_eq_findSome (languages locales : List JSString) :
    firstLanguageMatch languages locales =
      languages.findSome? (fun lang =>
        if locales.contains lang then some lang
        else if locales.contains (primarySubtag lang) then some (primarySubtag lang)
        else none) := by
  induction languages with
  | nil => rfl
  | cons lang rest ih =>
    by_cases h1 : lang ∈ locales
    · simp [firstLanguageMatch, h1, List.findSome?_cons]
    · by_cases h2 : primarySubtag lang ∈ locales
      · simp [firstLanguageMatch, h1, h2, List.findSome?_cons]
      · simp [firstLanguageMatch, h1, h2, List.findSome?_cons, ih]

/-! ## Claim theorems -/

/-- Claim C2: for every request carrying a locale cookie whose value is a
supported locale, `getLocale` returns that cookie value, regardless of the
`Accept-Language` header. -/
theorem getLocale_cookie_wins (request : NextRequest) (c : JSString)
    (hcookie : request.cookieLocale = some c) (hmem : c ∈ LOCALES) :
    getLocale request LOCALES = c := by
  have hne : (c != []) = true := by
    simpa [bne_iff_ne] using mem_LOCALES_ne_nil hmem
  have hcon : LOCALES.contains c = true := contains_LOCALES_iff.mpr hmem
  unfold getLocale
  rw [hcookie]
  simp [hne, hcon, hmem]

/-- Witness for C2: cookie `sv` beats a header preferring `en`. -/
theorem getLocale_cookie_wins_witness :
    getLocale ⟨str "/about", [], some (str "sv"), some (str "en")⟩ LOCALES =
      str "sv" :=
  getLocale_cookie_wins _ (str "sv") rfl (by decide)

/-- Claim C4: `getLocale` always returns a supported locale; an unsupported
cookie value is ignored (resolution proceeds as if there were no cookie);
and with no cookie and `Accept-Language: de-DE` the result is the default
locale `en`. -/
theorem getLocale_total_default_fallback :
    (∀ request : NextRequest, getLocale request LOCALES ∈ LOCALES)
    ∧ (∀ (request : NextRequest) (c : JSString), request.cookieLocale = some c →
        c ∉ LOCALES →
        getLocale request LOCALES =
          getLocale { request with cookieLocale := none } LOCALES)
    ∧ getLocale ⟨str "/about", [], none, some (str "de-DE")⟩ LOCALES = str "en" := by
  refine ⟨getLocale_mem, ?_, by decide⟩
  intro request c hc hmem
  have hcon : LOCALES.contains c = false := by
    cases h : LOCALES.contains c with
    | false => rfl
    | true => exact absurd (contains_LOCALES_iff.mp h) hmem
  calc getLocale request LOCALES = getLocaleFromBrowser request LOCALES := by
        unfold getLocale
        rw [hc]
        simp [hcon, hmem]
    _ = getLocale { request with cookieLocale := none } LOCALES := by
        cases request
        rfl

/-- Witness for C4: an unsupported cookie value `de` is ignored. -/
theorem getLocale_total_default_fallback_witness :
    getLocale ⟨str "/x", [], some (str "de"), some (str "sv")⟩ LOCALES =
      getLocale ⟨str "/x", [], none, some (str "sv")⟩ LOCALES :=
  getLocale_total_default_fallback.2.1
    ⟨str "/x", [], some (str "de"), some (str "sv")⟩ (str "de") rfl (by decide)

/-- Claim C6: every path that starts with the static prefix, contains the
API marker or contains a dot is excluded: the middleware passes the request
through with no cookie mutation and no locale header. -/
theorem excluded_passthrough (request : NextRequest)
    (h : (jsStartsWith request.pathname (str "/static") ||
          jsIncludes request.pathname (str "/api/") ||
          jsIncludes request.pathname (str ".")) = true) :
    middleware request =
      { action := RouteAction.next, cookieOp := none, localeHeader := none } :=
  middleware_excluded (show shouldExclude request.pathname = true from h)

/-- Witness for C6: `/api/draft` is passed through untouched. -/
theorem excluded_passthrough_witness :
    middleware ⟨str "/api/draft", [], some (str "en"), some (str "pl")⟩ =
      { action := RouteAction.next, cookieOp := none, localeHeader := none } :=
  excluded_passthrough _ (by decide)

/-- Claim C3: browser negotiation walks the `Accept-Language` tags in
descending quality order (the negotiated entry list is sorted by descending
quality), trying for each tag an exact match and then a primary-subtag
match, the first match across the whole sequence winning; with no cookie
and `Accept-Language: pl-PL,en;q=0.5` against `[en, pl, sv]` the resolved
locale is `pl`. -/
theorem browser_negotiation_order_and_match :
    (∀ header : JSString,
      (negotiatorEntries header).Pairwise (fun a b => b.q ≤ a.q))
    ∧ (∀ (header : JSString) (locales : List JSString) (request : NextRequest),
        request.acceptLanguage = some header → header ≠ [] →
        getBrowserLanguage request locales =
          (negotiatorLanguages header).findSome? (fun lang =>
            if locales.contains lang then some lang
            else if locales.contains (primarySubtag lang) then
              some (primarySubtag lang)
            else none))
    ∧ getLocale ⟨str "/about", [], none, some (str "pl-PL,en;q=0.5")⟩ LOCALES =
        str "pl" := by
  refine ⟨fun header => pairwise_sortByQ _, ?_, by decide⟩
  intro header locales request hal hne
  have hbe : (header == []) = false := by
    simpa [beq_eq_false_iff_ne] using hne
  unfold getBrowserLanguage
  rw [hal]
  simp [hbe, firstLanguageMatch_eq_findSome]

/-- Witness for C3: the negotiation equation at the concrete header
`pl-PL,en;q=0.5`. -/
theorem browser_negotiation_order_and_match_witness :
    getBrowserLanguage ⟨str "/about", [], none, some (str "pl-PL,en;q=0.5")⟩
        LOCALES =
      (negotiatorLanguages (str "pl-PL,en;q=0.5")).findSome? (fun lang =>
        if LOCALES.contains lang then some lang
        else if LOCALES.contains (primarySubtag lang) then
          some (primarySubtag lang)
        else none) :=
  browser_negotiation_order_and_match.2.1 _ LOCALES _ rfl (by decide)

/-- Claim C1: on a non-excluded request with no supported-locale prefix the
middleware rewrites when the resolved locale is the default and redirects
to the locale-prefixed path when it is a non-default supported locale; a
redirect is emitted only in that case. -/
theorem rewrite_vs_redirect :
    (∀ request : NextRequest,
      shouldExclude request.pathname = false →
      localeInPath request.pathname = none →
      (getLocale request LOCALES = DEFAULT_LOCALE →
        (middleware request).action =
          RouteAction.rewrite
            (createUrl (noLocaleTarget request.pathname (getLocale request LOCALES))
              request.search))
      ∧ (getLocale request LOCALES ≠ DEFAULT_LOCALE →
        (middleware request).action =
          RouteAction.redirect
            (createUrl (noLocaleTarget request.pathname (getLocale request LOCALES))
              request.search)))
    ∧ (∀ (request : NextRequest) (u : JSString),
        (middleware request).action = RouteAction.redirect u →
        shouldExclude request.pathname = false ∧
        localeInPath request.pathname = none ∧
        getLocale request LOCALES ≠ DEFAULT_LOCALE) := by
  constructor
  · intro request hex hn
    rw [middleware_eq_noLocale hex hn, updateLocaleCookies_action]
    constructor
    · intro hdef
      simp [hdef]
    · intro hnd
      have hbe : (getLocale request LOCALES == DEFAULT_LOCALE) = false := by
        simpa [beq_eq_false_iff_ne] using hnd
      simp [hbe]
  · intro request u hred
    by_cases hex : shouldExclude request.pathname = true
    · rw [middleware_excluded hex] at hred
      simp at hred
    · have hex' : shouldExclude request.pathname = false :=
        Bool.eq_false_iff.mpr hex
      cases hn : localeInPath request.pathname with
      | some L =>
        rw [middleware_eq_locale hex' hn, updateLocaleCookies_action] at hred
        simp at hred
      | none =>
        refine ⟨hex', rfl, fun hdef => ?_⟩
        rw [middleware_eq_noLocale hex' hn, updateLocaleCookies_action] at hred
        have hbe : (getLocale request LOCALES == DEFAULT_LOCALE) = true := by
          simpa using hdef
        rw [hbe] at hred
        simp at hred

/-- Witness for C1: `/about` rewrites under default resolution and
redirects under a `sv` cookie. -/
theorem rewrite_vs_redirect_witness :
    (middleware ⟨str "/about", [], none, none⟩).action =
      RouteAction.rewrite
        (createUrl
          (noLocaleTarget (str "/about")
            (getLocale ⟨str "/about", [], none, none⟩ LOCALES)) [])
    ∧ (middleware ⟨str "/about", [], some (str "sv"), none⟩).action =
      RouteAction.redirect
        (createUrl
          (noLocaleTarget (str "/about")
            (getLocale ⟨str "/about", [], some (str "sv"), none⟩ LOCALES)) []) :=
  ⟨(rewrite_vs_redirect.1 ⟨str "/about", [], none, none⟩ (by decide) (by decide)).1
      (by decide),
   (rewrite_vs_redirect.1 ⟨str "/about", [], some (str "sv"), none⟩ (by decide)
      (by decide)).2 (by decide)⟩

/-- Claim C7: on every non-excluded request the middleware's rewrite or
redirect target is the target path followed by the original query string
verbatim; `/about?ref=newsletter` rewrites to `/en/about?ref=newsletter`. -/
theorem query_preserved :
    (∀ request : NextRequest, shouldExclude request.pathname = false →
      (middleware request).action =
          RouteAction.rewrite (createUrl (pathTarget request) request.search)
      ∨ (middleware request).action =
          RouteAction.redirect (createUrl (pathTarget request) request.search))
    ∧ (middleware ⟨str "/about", str "ref=newsletter", none, none⟩).action =
        RouteAction.rewrite (str "/en/about?ref=newsletter") := by
  refine ⟨?_, by decide⟩
  intro request hex
  cases hf : localeInPath request.pathname with
  | some L =>
    left
    rw [middleware_eq_locale hex hf, updateLocaleCookies_action]
    simp [pathTarget, hf]
  | none =>
    rw [middleware_eq_noLocale hex hf, updateLocaleCookies_action]
    simp only [pathTarget, hf]
    cases hb : (getLocale request LOCALES == DEFAULT_LOCALE) with
    | true => exact Or.inl (by simp)
    | false => exact Or.inr (by simp)

/-- Witness for C7: the target of `/pl/x?a=b` carries the query verbatim. -/
theorem query_preserved_witness :
    (middleware ⟨str "/pl/x", str "a=b", none, none⟩).action =
        RouteAction.rewrite
          (createUrl (pathTarget ⟨str "/pl/x", str "a=b", none, none⟩) (str "a=b"))
    ∨ (middleware ⟨str "/pl/x", str "a=b", none, none⟩).action =
        RouteAction.redirect
          (createUrl (pathTarget ⟨str "/pl/x", str "a=b", none, none⟩) (str "a=b")) :=
  query_preserved.1 _ (by decide)

/-- Claim C8: on every non-excluded request the middleware sets the locale
response header to the resolved locale and mutates the locale cookie
exactly when the incoming cookie value differs from the resolved locale
(setting it to the resolved locale). -/
theorem session_state_update (request : NextRequest)
    (hex : shouldExclude request.pathname = false) :
    (middleware request).localeHeader = some (resolvedLocale request)
    ∧ (middleware request).cookieOp =
        (if request.cookieLocale = some (resolvedLocale request) then none
         else some (CookieOp.set (resolvedLocale request))) := by
  have hmem := resolvedLocale_mem request
  have hne := mem_LOCALES_ne_nil hmem
  cases hf : localeInPath request.pathname with
  | some L =>
    have hres : resolvedLocale request = L := by
      unfold resolvedLocale
      rw [hf]
    rw [hres] at hne ⊢
    rw [middleware_eq_locale hex hf, updateLocaleCookies_some _ _ hne]
    exact ⟨rfl, rfl⟩
  | none =>
    have hres : resolvedLocale request = getLocale request LOCALES := by
      unfold resolvedLocale
      rw [hf]
    rw [hres] at hne ⊢
    rw [middleware_eq_noLocale hex hf, updateLocaleCookies_some _ _ hne]
    exact ⟨rfl, rfl⟩

/-- Witness for C8: `/sv/about` with cookie `en` gets header `sv` and the
cookie updated to `sv`. -/
theorem session_state_update_witness :
    (middleware ⟨str "/sv/about", [], some (str "en"), none⟩).localeHeader =
        some (str "sv")
    ∧ (middleware ⟨str "/sv/about", [], some (str "en"), none⟩).cookieOp =
        some (CookieOp.set (str "sv")) := by
  have h := session_state_update ⟨str "/sv/about", [], some (str "en"), none⟩
    (by decide)
  refine ⟨?_, ?_⟩
  · rw [h.1]
    decide
  · rw [h.2]
    decide

/-- Counterexample to C5 as stated: `/en/app.js` is prefixed with the
supported locale `en`, yet the middleware does not produce a rewrite (the
exclusion filter fires on the dot). -/
theorem locale_norm_counterexample :
    localeInPath (str "/en/app.js") = some (str "en")
    ∧ RouteAction.isRewrite
        (middleware ⟨str "/en/app.js", [], none, none⟩).action = false := by
  decide

/-- Claim C5 (amended with non-exclusion): on a non-excluded path carrying
a supported-locale prefix the middleware rewrites to the normalized
locale-prefixed target; the target stripped of its locale prefix equals the
stripped input path; and running the middleware on the target again yields
the same rewrite target. -/
theorem locale_norm_idempotent (p q : JSString) (ck al : Option JSString)
    (L : JSString) (hex : shouldExclude p = false)
    (hf : localeInPath p = some L) :
    (middleware ⟨p, q, ck, al⟩).action =
        RouteAction.rewrite (createUrl (normTarget p L) q)
    ∧ mapPathWithoutLocale (normTarget p L) = mapPathWithoutLocale p
    ∧ ∀ ck' al' : Option JSString,
        (middleware ⟨normTarget p L, q, ck', al'⟩).action =
          RouteAction.rewrite (createUrl (normTarget p L) q) := by
  have hmem : L ∈ LOCALES := List.mem_of_find?_eq_some hf
  have hpred := List.find?_some hf
  have hact : (middleware ⟨p, q, ck, al⟩).action =
      RouteAction.rewrite (createUrl (normTarget p L) q) := by
    rw [@middleware_eq_locale ⟨p, q, ck, al⟩ L hex hf, updateLocaleCookies_action]
  rw [Bool.or_eq_true] at hpred
  rcases hpred with hstarts | heq
  · obtain ⟨rest, hp⟩ := eq_append_of_startsList
      (show startsList (str "/" ++ L ++ str "/") p = true from hstarts)
    have hform : p = (str "/" ++ L) ++ ('/' :: rest) := by
      rw [hp]
      simp [show (str "/" : JSString) = ['/'] from rfl]
    have hrepl : jsReplaceFirst p (str "/" ++ L) [] = '/' :: rest := by
      rw [hform, jsReplaceFirst_append]
      rfl
    have hnorm : normTarget p L = p := by
      unfold normTarget
      rw [hrepl, show leadingSlashUrlPath ('/' :: rest) = '/' :: rest from rfl,
        hform]
    refine ⟨hact, by rw [hnorm], fun ck' al' => ?_⟩
    rw [hnorm]
    rw [@middleware_eq_locale ⟨p, q, ck', al'⟩ L hex hf,
      updateLocaleCookies_action, hnorm]
  · have hpeq : p = str "/" ++ L := eq_of_beq heq
    subst hpeq
    rcases mem_LOCALES_cases hmem with rfl | rfl | rfl <;>
      refine ⟨hact, by decide, fun ck' al' => ?_⟩
    · have hex2 : shouldExclude (normTarget (str "/" ++ str "en") (str "en")) =
          false := by decide
      have hf2 : localeInPath (normTarget (str "/" ++ str "en") (str "en")) =
          some (str "en") := by decide
      rw [@middleware_eq_locale
          ⟨normTarget (str "/" ++ str "en") (str "en"), q, ck', al'⟩ (str "en")
          hex2 hf2, updateLocaleCookies_action,
        show normTarget (normTarget (str "/" ++ str "en") (str "en")) (str "en") =
            normTarget (str "/" ++ str "en") (str "en") from by decide]
    · have hex2 : shouldExclude (normTarget (str "/" ++ str "pl") (str "pl")) =
          false := by decide
      have hf2 : localeInPath (normTarget (str "/" ++ str "pl") (str "pl")) =
          some (str "pl") := by decide
      rw [@middleware_eq_locale
          ⟨normTarget (str "/" ++ str "pl") (str "pl"), q, ck', al'⟩ (str "pl")
          hex2 hf2, updateLocaleCookies_action,
        show normTarget (normTarget (str "/" ++ str "pl") (str "pl")) (str "pl") =
            normTarget (str "/" ++ str "pl") (str "pl") from by decide]
    · have hex2 : shouldExclude (normTarget (str "/" ++ str "sv") (str "sv")) =
          false := by decide
      have hf2 : localeInPath (normTarget (str "/" ++ str "sv") (str "sv")) =
          some (str "sv") := by decide
      rw [@middleware_eq_locale
          ⟨normTarget (str "/" ++ str "sv") (str "sv"), q, ck', al'⟩ (str "sv")
          hex2 hf2, updateLocaleCookies_action,
        show normTarget (normTarget (str "/" ++ str "sv") (str "sv")) (str "sv") =
            normTarget (str "/" ++ str "sv") (str "sv") from by decide]

/-- Witness for C5 (amended): the concrete path `/en/about`. -/
theorem locale_norm_idempotent_witness :
    (middleware ⟨str "/en/about", [], none, none⟩).action =
        RouteAction.rewrite (createUrl (normTarget (str "/en/about") (str "en")) [])
    ∧ mapPathWithoutLocale (normTarget (str "/en/about") (str "en")) =
        mapPathWithoutLocale (str "/en/about") :=
  ⟨(locale_norm_idempotent (str "/en/about") [] none none (str "en") (by decide)
      (by decide)).1,
   (locale_norm_idempotent (str "/en/about") [] none none (str "en") (by decide)
      (by decide)).2.1⟩

/-- Counterexample to C9 as stated: the first non-empty `/`-segment of
`//en/about` is the supported locale `en`, yet the middleware's
locale-in-path test does not fire on it (while it does on `/en/about`). -/
theorem path_locale_split_counterexample :
    LOCALES.contains
        (((jsSplitChar '/' (str "//en/about")).filter (fun s => s != [])).headD
          []) = true
    ∧ localeInPath (str "//en/about") = none
    ∧ localeInPath (str "/en/about") = some (str "en") := by
  decide

/-- Claim C9 (amended): the PathHasLocale test holds exactly when the raw
path starts with `/<locale>/` or equals `/<locale>` for some supported
locale — no splitting on `/` or empty-segment filtering is involved. -/
theorem localeInPath_characterization :
    ∀ pathname : JSString,
      (localeInPath pathname).isSome = true ↔
        ∃ l ∈ LOCALES,
          (jsStartsWith pathname (str "/" ++ l ++ str "/") ||
            pathname == str "/" ++ l) = true := by
  intro pathname
  simp [localeInPath, List.find?_isSome]

/-- Claim C10: a redirect is never followed by another redirect: on any
non-excluded request (pathnames start with `/`) that redirects, the target
path starts with `/<locale>/` for the resolved supported locale, and
running the middleware on that target path — under any query, cookie and
`Accept-Language` values — takes the locale-in-path branch and rewrites. -/
theorem no_redirect_loop (request : NextRequest) (u : JSString)
    (hs : jsStartsWith request.pathname (str "/") = true)
    (hex : shouldExclude request.pathname = false)
    (hred : (middleware request).action = RouteAction.redirect u) :
    getLocale request LOCALES ∈ LOCALES
    ∧ u = createUrl (noLocaleTarget request.pathname (getLocale request LOCALES))
        request.search
    ∧ jsStartsWith (noLocaleTarget request.pathname (getLocale request LOCALES))
        (str "/" ++ getLocale request LOCALES ++ str "/") = true
    ∧ ∀ (q' : JSString) (ck' al' : Option JSString),
        (middleware
            ⟨noLocaleTarget request.pathname (getLocale request LOCALES), q',
              ck', al'⟩).action =
          RouteAction.rewrite
            (createUrl
              (normTarget
                (noLocaleTarget request.pathname (getLocale request LOCALES))
                (getLocale request LOCALES)) q') := by
  cases hf : localeInPath request.pathname with
  | some L =>
    rw [middleware_eq_locale hex hf, updateLocaleCookies_action] at hred
    simp at hred
  | none =>
    rw [middleware_eq_noLocale hex hf, updateLocaleCookies_action] at hred
    cases hb : (getLocale request LOCALES == DEFAULT_LOCALE) with
    | true =>
      rw [hb] at hred
      simp at hred
    | false =>
      rw [hb] at hred
      simp at hred
      obtain ⟨t, hp⟩ := eq_append_of_startsList
        (show startsList (str "/") request.pathname = true from hs)
      have key : ∀ l : JSString, l ∈ LOCALES →
          jsStartsWith (noLocaleTarget request.pathname l)
              (str "/" ++ l ++ str "/") = true
          ∧ shouldExclude (noLocaleTarget request.pathname l) = false
          ∧ localeInPath (noLocaleTarget request.pathname l) = some l := by
        intro l hl
        rw [hp] at hex ⊢
        unfold shouldExclude at hex
        simp only [Bool.or_eq_false_iff] at hex
        rcases mem_LOCALES_cases hl with rfl | rfl | rfl
        · refine ⟨rfl, ?_, rfl⟩
          unfold shouldExclude
          rw [show jsStartsWith (noLocaleTarget (str "/" ++ t) (str "en"))
                (str "/static") = false from rfl,
            show jsIncludes (noLocaleTarget (str "/" ++ t) (str "en"))
                (str "/api/") = jsIncludes (str "/" ++ t) (str "/api/") from rfl,
            show jsIncludes (noLocaleTarget (str "/" ++ t) (str "en"))
                (str ".") = jsIncludes (str "/" ++ t) (str ".") from rfl,
            hex.1.2, hex.2]
          rfl
        · refine ⟨rfl, ?_, rfl⟩
          unfold shouldExclude
          rw [show jsStartsWith (noLocaleTarget (str "/" ++ t) (str "pl"))
                (str "/static") = false from rfl,
            show jsIncludes (noLocaleTarget (str "/" ++ t) (str "pl"))
                (str "/api/") = jsIncludes (str "/" ++ t) (str "/api/") from rfl,
            show jsIncludes (noLocaleTarget (str "/" ++ t) (str "pl"))
                (str ".") = jsIncludes (str "/" ++ t) (str ".") from rfl,
            hex.1.2, hex.2]
          rfl
        · refine ⟨rfl, ?_, rfl⟩
          unfold shouldExclude
          rw [show jsStartsWith (noLocaleTarget (str "/" ++ t) (str "sv"))
                (str "/static") = false from rfl,
            show jsIncludes (noLocaleTarget (str "/" ++ t) (str "sv"))
                (str "/api/") = jsIncludes (str "/" ++ t) (str "/api/") from rfl,
            show jsIncludes (noLocaleTarget (str "/" ++ t) (str "sv"))
                (str ".") = jsIncludes (str "/" ++ t) (str ".") from rfl,
            hex.1.2, hex.2]
          rfl
      obtain ⟨k1, k2, k3⟩ := key (getLocale request LOCALES) (getLocale_mem request)
      refine ⟨getLocale_mem request, hred.symm, k1, fun q' ck' al' => ?_⟩
      rw [@middleware_eq_locale
          ⟨noLocaleTarget request.pathname (getLocale request LOCALES), q', ck',
            al'⟩ (getLocale request LOCALES) k2 k3, updateLocaleCookies_action]

/-- Witness for C10: the redirect for `/about?a=b` under a `pl` cookie. -/
theorem no_redirect_loop_witness :
    getLocale ⟨str "/about", str "a=b", some (str "pl"), none⟩ LOCALES ∈ LOCALES
    ∧ str "/pl/about?a=b" =
        createUrl
          (noLocaleTarget (str "/about")
            (getLocale ⟨str "/about", str "a=b", some (str "pl"), none⟩ LOCALES))
          (str "a=b")
    ∧ jsStartsWith
        (noLocaleTarget (str "/about")
          (getLocale ⟨str "/about", str "a=b", some (str "pl"), none⟩ LOCALES))
        (str "/" ++
          getLocale ⟨str "/about", str "a=b", some (str "pl"), none⟩ LOCALES ++
          str "/") = true := by
  have h := no_redirect_loop ⟨str "/about", str "a=b", some (str "pl"), none⟩
    (str "/pl/about?a=b") (by decide) (by decide) (by decide)
  exact ⟨h.1, h.2.1, h.2.2.1⟩
